import Mathlib

/-!
Formal model of the pykons kit codec (`src/pykons/kit_tools.py`).

Byte buffers are modelled as `List Nat` (Python `bytes`/`bytearray` hold
values in `[0, 255]`; out-of-range stores into a `bytearray` raise, which is
modelled explicitly where it can occur).  Python slice semantics, including
negative indices and clamping, are modelled by `pySlice` / `pySetSlice`.
Fallible code returns `Except Err _`; mutating methods on an existing object
are modelled as `State → Except Err Unit × State`, returning the object's
state at the point the exception was raised, so that partial-mutation
questions are expressible.  Error constructors follow the spec's taxonomy;
each raise site in the source is mapped to the corresponding constructor.
-/

namespace Pykons

/-- Error taxonomy.  Each constructor corresponds to one family of `raise
ValueError(...)` sites (or a CPython builtin error) in `kit_tools.py`. -/
inductive Err where
  /-- `Voice.__init__`: data length not in {26, 30, 32}. -/
  | invalidVoiceLength
  /-- `Kit._find_voice_boundaries`: marker count ≠ 4. -/
  | malformedKit
  /-- Toggle / potentiometer setter value outside its domain. -/
  | valueOutOfRange
  /-- Section setter on a voice kind lacking that section. -/
  | sectionUnavailable
  /-- Section setter given a replacement of the wrong length. -/
  | sectionLengthMismatch
  /-- Voice/kit index outside 0..3, or kit index outside the loaded list. -/
  | indexOutOfRange
  /-- `Kit.set_voice`: supplied voice length incompatible with the slot. -/
  | incompatibleVoiceKind
  /-- `Kit.create_header`: header_size < 7. -/
  | invalidHeaderSize
  /-- `Kit.create_header`: voice_format not in {1, 2}. -/
  | invalidSubFormat
  /-- CPython `bytearray` item assignment with a value outside range(256). -/
  | byteValueOutOfRange
  /-- `mix_kits`: number of voice selections ≠ 4. -/
  | selectionCountError
  deriving DecidableEq, Repr

/-- Python slice read `l[i:j]` (step 1): negative indices count from the end,
then both endpoints are clamped into `[0, len l]`. -/
def pySlice (l : List Nat) (i j : Int) : List Nat :=
  let n : Int := l.length
  let i' : Int := if i < 0 then (if i + n < 0 then 0 else i + n)
                  else (if i > n then n else i)
  let j' : Int := if j < 0 then (if j + n < 0 then 0 else j + n)
                  else (if j > n then n else j)
  (l.drop i'.toNat).take (j' - i').toNat

/-- Python slice assignment `l[a:b] = repl` for `0 ≤ a ≤ b` (the only form
used in the source): the elements of `l[a:b]` are replaced by `repl`. -/
def pySetSlice (l : List Nat) (a b : Nat) (repl : List Nat) : List Nat :=
  l.take a ++ repl ++ l.drop b

/-- A `Voice` object: `self.data`, the voice's byte buffer
(`kit_tools.py` line 99).  The `is_voice4` / `has_sampler` flags are
computed from `len(data)` at construction and the length never changes,
so they are modelled as derived functions below. -/
structure Voice where
  data : List Nat
  deriving DecidableEq, Repr

/-- `self.is_voice4 = len(data) in (30, 32)` (line 100). -/
def Voice.is_voice4 (v : Voice) : Prop :=
  v.data.length = 30 ∨ v.data.length = 32

instance (v : Voice) : Decidable v.is_voice4 := by
  unfold Voice.is_voice4; infer_instance

/-- `self.has_sampler = len(data) == 32` (line 101). -/
def Voice.has_sampler (v : Voice) : Prop :=
  v.data.length = 32

instance (v : Voice) : Decidable v.has_sampler := by
  unfold Voice.has_sampler; infer_instance

/-- `Voice.__init__` (lines 89–106): rejects lengths outside {26, 30, 32};
the marker check only prints a warning and never fails. -/
def mkVoice (d : List Nat) : Except Err Voice :=
  if d.length = 26 ∨ d.length = 30 ∨ d.length = 32 then .ok ⟨d⟩
  else .error .invalidVoiceLength

/-- The eight potentiometer fields of a voice. -/
inductive PotField where
  | tune | decay | param1 | param2 | cutoff | drive | fx_send | level
  deriving DecidableEq, Repr

/-- Raw-value byte offset of each potentiometer field, from the setters at
lines 213–310 (tune@9, decay@17, param1@11, param2@13, cutoff@19,
drive@21, fx_send@15, level@23). -/
def potOffset : PotField → Nat
  | .tune => 9
  | .decay => 17
  | .param1 => 11
  | .param2 => 13
  | .cutoff => 19
  | .drive => 21
  | .fx_send => 15
  | .level => 23

/-- The three toggle fields of a voice. -/
inductive ToggleField where
  | algo | mode | vcf
  deriving DecidableEq, Repr

/-- Byte offset of each toggle field (algo@0, mode@2, vcf@24),
from the setters at lines 172–206. -/
def toggleOffset : ToggleField → Nat
  | .algo => 0
  | .mode => 2
  | .vcf => 24

/-- Potentiometer getter: `return self.data[offset]`. -/
def potValue (f : PotField) (v : Voice) : Nat :=
  v.data.getD (potOffset f) 0

/-- Toggle getter: `return self.data[offset]`. -/
def toggleValue (f : ToggleField) (v : Voice) : Nat :=
  v.data.getD (toggleOffset f) 0

/-- The mutating operations of the `Voice` class. -/
inductive VoiceOp where
  | setPreMarker (val : List Nat)
  | setParameters (val : List Nat)
  | setExtraParams (val : List Nat)
  | setSamplerParams (val : List Nat)
  | setToggle (f : ToggleField) (x : Int)
  | setPot (f : PotField) (x : Int)
  deriving DecidableEq, Repr

/-- The `Voice` setters, translated statement by statement.  The result's
first component is the exception raised (if any) and the second is the
object's state when control left the method; every raise in the source
precedes the write, so the state returned with an error is the entry state.

* `setPreMarker`: lines 113–118 — length-4 check, then `data[0:4] = value`.
* `setParameters`: lines 130–135 — length-18 check, then `data[8:26] = value`.
* `setExtraParams`: lines 144–151 — `is_voice4` check, length-4 check,
  then `data[26:30] = value`.
* `setSamplerParams`: lines 160–167 — `has_sampler` check, length-2 check,
  then `data[30:32] = value`.
* `setToggle`: domain check `value in (0, 1, 2)`, then a single byte store.
* `setPot`: domain check `0 <= value <= 255`, then a single byte store. -/
def applyVoiceOp (op : VoiceOp) (v : Voice) : Except Err Unit × Voice :=
  match op with
  | .setPreMarker val =>
    if val.length ≠ 4 then (.error .sectionLengthMismatch, v)
    else (.ok (), ⟨pySetSlice v.data 0 4 val⟩)
  | .setParameters val =>
    if val.length ≠ 18 then (.error .sectionLengthMismatch, v)
    else (.ok (), ⟨pySetSlice v.data 8 26 val⟩)
  | .setExtraParams val =>
    if ¬ v.is_voice4 then (.error .sectionUnavailable, v)
    else if val.length ≠ 4 then (.error .sectionLengthMismatch, v)
    else (.ok (), ⟨pySetSlice v.data 26 30 val⟩)
  | .setSamplerParams val =>
    if ¬ v.has_sampler then (.error .sectionUnavailable, v)
    else if val.length ≠ 2 then (.error .sectionLengthMismatch, v)
    else (.ok (), ⟨pySetSlice v.data 30 32 val⟩)
  | .setToggle f x =>
    if ¬ (x = 0 ∨ x = 1 ∨ x = 2) then (.error .valueOutOfRange, v)
    else (.ok (), ⟨v.data.set (toggleOffset f) x.toNat⟩)
  | .setPot f x =>
    if ¬ (0 ≤ x ∧ x ≤ 255) then (.error .valueOutOfRange, v)
    else (.ok (), ⟨v.data.set (potOffset f) x.toNat⟩)

deriving instance DecidableEq for Except

/-- A `Kit` object: header bytes plus the list of voices
(`kit_tools.py` lines 385–424). -/
structure Kit where
  header : List Nat
  voices : List Voice
  deriving DecidableEq, Repr

/-- CPython `bytearray` item assignment `l[i] = x`: raises `ValueError`
unless `x` is in `range(256)`.  (`i` is in range at every call site,
guarded by `header_size >= 7`.) -/
def byteSet (l : List Nat) (i : Nat) (x : Nat) : Except Err (List Nat) :=
  if x ≤ 255 then .ok (l.set i x)
  else .error .byteValueOutOfRange

/-- `Kit.create_header` (lines 323–359): validates `header_size >= 7` and
`voice_format in (1, 2)`, allocates a zero `bytearray(header_size)`, then
performs the seven fixed byte stores in source order. -/
def create_header (header_size : Nat) (voice_format : Nat) : Except Err (List Nat) := do
  if header_size < 7 then .error .invalidHeaderSize
  else if ¬ (voice_format = 1 ∨ voice_format = 2) then .error .invalidSubFormat
  else
    let voice_data_size := if voice_format = 1 then 108 else 110
    let total_size := header_size + voice_data_size
    let h0 := List.replicate header_size 0
    let h1 ← byteSet h0 0 (total_size - 2)
    let h2 ← byteSet h1 1 1
    let h3 ← byteSet h2 2 8
    let h4 ← byteSet h3 3 1
    let h5 ← byteSet h4 4 18
    let h6 ← byteSet h5 5 (header_size - 2)
    let h7 ← byteSet h6 6 13
    .ok h7

/-- The marker sentinel `[26, 24, 10, 22]` (line 369). -/
def markerBytes : List Nat := [26, 24, 10, 22]

/-- The marker scan of `Kit._find_voice_boundaries` (lines 372–374):
every position `i` in `range(len(data) - 3)` at which `data[i:i+4]`
equals the marker, in left-to-right order. -/
def findMarkers (data : List Nat) : List Nat :=
  (List.range (data.length - 3)).filter
    (fun i => decide ((data.drop i).take 4 = markerBytes))

/-- `Kit._find_voice_boundaries` (lines 361–383): fails unless exactly 4
markers are found; each voice starts 4 bytes before its marker, ends where
the next voice starts (the last ends at the end of the buffer). -/
def find_voice_boundaries (data : List Nat) : Except Err (List (Int × Int)) :=
  let ps := findMarkers data
  if ps.length ≠ 4 then .error .malformedKit
  else
    let voice_starts : List Int := ps.map (fun (p : Nat) => (p : Int) - 4)
    let voice_ends : List Int := voice_starts.tail ++ [(data.length : Int)]
    .ok (voice_starts.zip voice_ends)

/-- A Python list comprehension over a fallible constructor: the first
exception aborts the whole construction. -/
def mapExcept (f : α → Except Err β) : List α → Except Err (List β)
  | [] => .ok []
  | a :: l =>
    match f a with
    | .error e => .error e
    | .ok b =>
      match mapExcept f l with
      | .error e => .error e
      | .ok bs => .ok (b :: bs)

/-- `Kit.__init__` with a data buffer, i.e. decoding (lines 393–404):
find the boundaries, slice the header (`data[0:boundaries[0][0]]`), and
construct one `Voice` per `(start, end)` slice. -/
def decode (data : List Nat) : Except Err Kit :=
  match find_voice_boundaries data with
  | .error e => .error e
  | .ok bounds =>
    match mapExcept (fun se => mkVoice (pySlice data se.1 se.2)) bounds with
    | .error e => .error e
    | .ok voices => .ok ⟨pySlice data 0 bounds.headI.1, voices⟩

/-- `Kit.to_bytes` (lines 441–451): header bytes followed by each voice's
bytes in order. -/
def Kit.to_bytes (k : Kit) : List Nat :=
  k.header ++ (k.voices.map Voice.data).flatten

/-- The zero-filled 26-byte voice buffer with the marker set
(lines 414–415). -/
def empty_voice_26 : List Nat :=
  pySetSlice (List.replicate 26 0) 4 8 markerBytes

/-- The zero-filled 30-byte voice buffer with the marker set
(lines 416–417). -/
def empty_voice_30 : List Nat :=
  pySetSlice (List.replicate 30 0) 4 8 markerBytes

/-- `Kit.__init__` with no data (lines 405–424): header from
`create_header(57)` (voice_format defaults to 1; this call never fails),
voices three empty Standard voices plus one empty Extended voice. -/
def defaultKit : Kit :=
  { header := match create_header 57 1 with
      | .ok h => h
      | .error _ => []
    voices := [⟨empty_voice_26⟩, ⟨empty_voice_26⟩, ⟨empty_voice_26⟩,
               ⟨empty_voice_30⟩] }

/-- `Kit.get_voice` (lines 463–475). -/
def get_voice (k : Kit) (index : Nat) : Except Err Voice :=
  if index ≥ 4 then .error .indexOutOfRange
  else .ok (k.voices.getD index ⟨[]⟩)

/-- The voice-conversion logic inside `Kit.set_voice` (lines 490–512),
as a function of the slot index, the current voice-4 buffer length and
the supplied voice.  Slots 0–2: a 26-byte voice passes through, a 30/32-byte
voice is truncated to its first 26 bytes, anything else fails.  Slot 3:
a 26-byte voice is extended with `[1,0,1,0]` plus `[0,0]` iff the current
voice 4 is 32 bytes; a 30/32-byte voice passes through; anything else
fails. -/
def convertForSlot (index : Nat) (current_v4_size : Nat) (v : Voice) :
    Except Err Voice :=
  if index < 3 then
    if v.data.length ≠ 26 then
      if v.data.length = 30 ∨ v.data.length = 32 then
        mkVoice (pySlice v.data 0 26)
      else .error .incompatibleVoiceKind
    else .ok v
  else
    if v.data.length = 26 then
      mkVoice (v.data ++ [1, 0, 1, 0] ++
        (if current_v4_size = 32 then [0, 0] else []))
    else if ¬ (v.data.length = 30 ∨ v.data.length = 32) then
      .error .incompatibleVoiceKind
    else .ok v

/-- `Kit.set_voice` (lines 477–514), statement by statement; the second
component is the kit's state when control left the method (the only write,
`self.voices[index] = voice`, is the final statement, after all raises).
`current_v4_size = len(self.voices[3].data) if len(self.voices) > 3 else 30`
(line 503). -/
def setVoiceRun (k : Kit) (index : Nat) (v : Voice) :
    Except Err Unit × Kit :=
  if index ≥ 4 then (.error .indexOutOfRange, k)
  else
    let current_v4_size :=
      if k.voices.length > 3 then (k.voices.getD 3 ⟨[]⟩).data.length else 30
    match convertForSlot index current_v4_size v with
    | .error e => (.error e, k)
    | .ok v' => (.ok (), { k with voices := k.voices.set index v' })

/-- The body of the `mix_kits` selection loop (lines 545–552): for each
target index in order, bounds-check the selection, fetch the source voice
and place it with `set_voice`. -/
def mixLoop (kits : List Kit) : Nat → List (Nat × Nat) → Kit → Except Err Kit
  | _, [], kit => .ok kit
  | t, (kit_idx, voice_idx) :: rest, kit =>
    if kit_idx ≥ kits.length then .error .indexOutOfRange
    else if ¬ voice_idx < 4 then .error .indexOutOfRange
    else
      match get_voice (kits.getD kit_idx defaultKit) voice_idx with
      | .error e => .error e
      | .ok v =>
        match setVoiceRun kit t v with
        | (.ok _, kit') => mixLoop kits (t + 1) rest kit'
        | (.error e, _) => .error e

/-- `mix_kits` (lines 520–554), with the file contents passed as byte
buffers (`Kit.from_file` reads the file and decodes it): check the
selection count, decode every kit, start from a default kit whose header
is replaced by `kits[0].header` (an `IndexError` if no kits were given),
then run the selection loop. -/
def mix_kits (kit_files : List (List Nat)) (sels : List (Nat × Nat)) :
    Except Err Kit :=
  if sels.length ≠ 4 then .error .selectionCountError
  else
    match mapExcept decode kit_files with
    | .error e => .error e
    | .ok kits =>
      match kits with
      | [] => .error .indexOutOfRange
      | k0 :: _ => mixLoop kits 0 sels { defaultKit with header := k0.header }

/-!
Reference semantics.  Python objects are references into a heap; `Voice`
objects passed between kits may or may not be copied.  To state aliasing
claims, the store below maps a voice reference (a `Nat`) to its byte
buffer, and a kit is its header plus a list of four voice references.
`Kit.set_voice` is re-expressed on this store: exactly where the source
constructs a fresh `Voice(...)` (the conversion paths) a new buffer is
allocated; where the source stores the supplied object (`self.voices[index]
= voice` with no conversion), the supplied reference itself is stored.
-/

/-- The voice heap: buffer at index `r` is the voice object with
reference `r`. -/
abbrev Store := List (List Nat)

/-- Read a voice buffer from the store. -/
def bytesAt (s : Store) (r : Nat) : List Nat :=
  List.getD s r []

/-- Allocate a fresh voice object holding `d`; returns the new store and
the fresh reference. -/
def allocV (s : Store) (d : List Nat) : Store × Nat :=
  (List.append s [d], List.length s)

/-- `Kit.set_voice` on the store (lines 477–514): `refs` are the kit's four
voice references and `r` the supplied voice's reference.  Pass-through
paths store `r` itself; conversion paths allocate a fresh buffer
(`Voice(bytes(...))` copies). -/
def setVoiceRef (s : Store) (refs : List Nat) (index : Nat) (r : Nat) :
    Except Err (Store × List Nat) :=
  if index ≥ 4 then .error .indexOutOfRange
  else
    let vlen := (bytesAt s r).length
    if index < 3 then
      if vlen ≠ 26 then
        if vlen = 30 ∨ vlen = 32 then
          let a := allocV s (pySlice (bytesAt s r) 0 26)
          .ok (a.1, refs.set index a.2)
        else .error .incompatibleVoiceKind
      else .ok (s, refs.set index r)
    else
      if vlen = 26 then
        let current_v4_size := (bytesAt s (refs.getD 3 0)).length
        let a := allocV s (bytesAt s r ++ [1, 0, 1, 0] ++
          (if current_v4_size = 32 then [0, 0] else []))
        .ok (a.1, refs.set index a.2)
      else if ¬ (vlen = 30 ∨ vlen = 32) then .error .incompatibleVoiceKind
      else .ok (s, refs.set index r)

/-- A potentiometer setter called through a reference: mutates the buffer
of the referenced voice object in place (on failure the store is
untouched; the raise precedes the write). -/
def potSetRef (s : Store) (r : Nat) (f : PotField) (x : Int) :
    Except Err Unit × Store :=
  if ¬ (0 ≤ x ∧ x ≤ 255) then (.error .valueOutOfRange, s)
  else (.ok (), s.set r ((bytesAt s r).set (potOffset f) x.toNat))

/-! ### Theorems -/

lemma ok_bind {α β : Type} (a : α) (f : α → Except Err β) :
    (Except.ok a >>= f) = f a := rfl

lemma byteSet_ok (l : List Nat) (i x : Nat) (h : x ≤ 255) :
    byteSet l i x = .ok (l.set i x) := by
  simp [byteSet, h]

lemma byteSet_overflow (l : List Nat) (i x : Nat) (h : ¬ x ≤ 255) :
    byteSet l i x = .error .byteValueOutOfRange := by
  simp [byteSet, h]

/-- Evaluation of `create_header` on valid parameters within the byte cap:
the seven stores land on the first seven zeros of the fresh buffer. -/
lemma create_header_ok_eval (hs sf : Nat) (h7 : 7 ≤ hs) (hsf : sf = 1 ∨ sf = 2)
    (hcap : hs + (if sf = 1 then 108 else 110) - 2 ≤ 255) :
    create_header hs sf =
      .ok ([hs + (if sf = 1 then 108 else 110) - 2, 1, 8, 1, 18, hs - 2, 13]
        ++ List.replicate (hs - 7) 0) := by
  obtain ⟨m, rfl⟩ : ∃ m, hs = 7 + m := ⟨hs - 7, by omega⟩
  have hrep : List.replicate (7 + m) (0 : Nat) =
      0 :: 0 :: 0 :: 0 :: 0 :: 0 :: 0 :: List.replicate m 0 := by
    rw [List.replicate_add]; rfl
  rcases hsf with rfl | rfl
  · rw [show (if (1 : Nat) = 1 then 108 else 110) = 108 from rfl] at hcap ⊢
    simp only [create_header]
    rw [if_neg (by omega), if_neg (by simp)]
    simp only [if_true]
    rw [byteSet_ok _ _ _ (by omega), ok_bind,
      byteSet_ok _ _ _ (by omega), ok_bind, byteSet_ok _ _ _ (by omega),
      ok_bind, byteSet_ok _ _ _ (by omega), ok_bind,
      byteSet_ok _ _ _ (by omega), ok_bind, byteSet_ok _ _ _ (by omega),
      ok_bind, byteSet_ok _ _ _ (by omega), ok_bind]
    rw [hrep, Nat.add_sub_cancel_left]
    rfl
  · rw [show (if (2 : Nat) = 1 then 108 else 110) = 110 from rfl] at hcap ⊢
    simp only [create_header]
    rw [if_neg (by omega), if_neg (by simp), if_neg (by simp)]
    rw [byteSet_ok _ _ _ (by omega), ok_bind,
      byteSet_ok _ _ _ (by omega), ok_bind, byteSet_ok _ _ _ (by omega),
      ok_bind, byteSet_ok _ _ _ (by omega), ok_bind,
      byteSet_ok _ _ _ (by omega), ok_bind, byteSet_ok _ _ _ (by omega),
      ok_bind, byteSet_ok _ _ _ (by omega), ok_bind]
    rw [hrep, Nat.add_sub_cancel_left]
    rfl

/-- Evaluation of `create_header` when byte 0's value overflows a byte:
the first `bytearray` store raises. -/
lemma create_header_overflow_eval (hs sf : Nat) (h7 : 7 ≤ hs)
    (hsf : sf = 1 ∨ sf = 2)
    (hcap : ¬ hs + (if sf = 1 then 108 else 110) - 2 ≤ 255) :
    create_header hs sf = .error .byteValueOutOfRange := by
  rcases hsf with rfl | rfl
  · rw [show (if (1 : Nat) = 1 then 108 else 110) = 108 from rfl] at hcap
    simp only [create_header]
    rw [if_neg (by omega), if_neg (by simp)]
    simp only [if_true]
    rw [byteSet_overflow _ _ _ (by omega)]
    rfl
  · rw [show (if (2 : Nat) = 1 then 108 else 110) = 110 from rfl] at hcap
    simp only [create_header]
    rw [if_neg (by omega), if_neg (by simp), if_neg (by simp)]
    rw [byteSet_overflow _ _ _ (by omega)]
    rfl

/-- Claim C6 (amended): `create_header` fails with `InvalidHeaderSize`
exactly when `header_size < 7`; it fails with `InvalidSubFormat` exactly
when `header_size ≥ 7` and `sub_format ∉ {1, 2}` (the header-size check
runs first); and for `header_size ≥ 7`, `sub_format ∈ {1, 2}` with byte 0's
value `header_size + (108 | 110) - 2` fitting in a byte, it succeeds and
returns exactly `header_size` bytes: byte 0 = `header_size + (108|110) - 2`,
bytes 1–4 = `[1, 8, 1, 18]`, byte 5 = `header_size - 2`, byte 6 = `13`,
zeros from offset 7 on. -/
theorem create_header_amended (hs sf : Nat) :
    (create_header hs sf = .error .invalidHeaderSize ↔ hs < 7) ∧
    (create_header hs sf = .error .invalidSubFormat ↔
      7 ≤ hs ∧ ¬ (sf = 1 ∨ sf = 2)) ∧
    (7 ≤ hs → (sf = 1 ∨ sf = 2) →
      hs + (if sf = 1 then 108 else 110) - 2 ≤ 255 →
      create_header hs sf =
        .ok ([hs + (if sf = 1 then 108 else 110) - 2, 1, 8, 1, 18,
          hs - 2, 13] ++ List.replicate (hs - 7) 0)) := by
  by_cases h7 : hs < 7
  · refine ⟨by simp [create_header, h7], ?_, by omega⟩
    simp only [create_header, if_pos h7]
    constructor
    · intro h; exact absurd h (by simp)
    · intro h; omega
  · by_cases hsf : sf = 1 ∨ sf = 2
    · refine ⟨?_, ?_,
        fun _ _ hcap => create_header_ok_eval hs sf (by omega) hsf hcap⟩
      all_goals
        by_cases hcap : hs + (if sf = 1 then 108 else 110) - 2 ≤ 255
      · rw [create_header_ok_eval hs sf (by omega) hsf hcap]; simp; omega
      · rw [create_header_overflow_eval hs sf (by omega) hsf hcap]
        simp; omega
      · rw [create_header_ok_eval hs sf (by omega) hsf hcap]; simp [hsf]
      · rw [create_header_overflow_eval hs sf (by omega) hsf hcap]
        simp [hsf]
    · refine ⟨?_, ?_, by tauto⟩
      · simp only [create_header, if_neg h7, if_pos hsf]
        constructor
        · intro h; exact absurd h (by simp)
        · intro h; omega
      · simp only [create_header, if_neg h7, if_pos hsf]
        simp [h7, hsf]
        omega

/-- Claim C6 counterexample: at `(header_size, sub_format) = (3, 5)` the
call fails with `InvalidHeaderSize`, not `InvalidSubFormat`, even though
`5 ∉ {1, 2}`; and at `(150, 1)` — `header_size ≥ 7`, `sub_format ∈ {1, 2}`
— the call does not succeed: byte 0's value `150 + 108 - 2 = 256` does not
fit in a byte and the store raises. -/
theorem create_header_claim_counterexample :
    create_header 3 5 = .error .invalidHeaderSize ∧
    create_header 150 1 = .error .byteValueOutOfRange ∧
    ¬ (create_header 3 5 = .error .invalidSubFormat) := by decide

/-- Witness for `create_header_amended` at the spec's concrete scenario
`(57, 1)`: 57 bytes, byte 0 = 163, bytes 1–4 = [1,8,1,18], byte 5 = 55,
byte 6 = 13, zeros after. -/
theorem create_header_amended_witness :
    create_header 57 1 =
      .ok ([163, 1, 8, 1, 18, 55, 13] ++ List.replicate 50 0) := by
  have h := (create_header_amended 57 1).2.2 (by omega) (Or.inl rfl)
    (by norm_num)
  simpa using h

lemma potOffset_lt (f : PotField) : potOffset f < 26 := by
  cases f <;> simp [potOffset]

/-- Claim C8: a potentiometer setter fails with `ValueOutOfRange` exactly
when the supplied value is outside `[0, 255]`; inside the range it succeeds
and the matching getter reads back exactly the value that was set. -/
theorem pot_setter_range_and_readback (f : PotField) (v : Voice) (x : Int)
    (hlen : v.data.length = 26 ∨ v.data.length = 30 ∨ v.data.length = 32) :
    ((applyVoiceOp (.setPot f x) v).1 = .error .valueOutOfRange ↔
      x < 0 ∨ 255 < x) ∧
    (0 ≤ x → x ≤ 255 →
      (applyVoiceOp (.setPot f x) v).1 = .ok () ∧
      ((potValue f (applyVoiceOp (.setPot f x) v).2 : Nat) : Int) = x) := by
  have hoff : potOffset f < v.data.length :=
    lt_of_lt_of_le (potOffset_lt f) (by omega)
  constructor
  · by_cases hx : 0 ≤ x ∧ x ≤ 255
    · rw [applyVoiceOp, if_neg (by tauto)]
      simp
      omega
    · rw [applyVoiceOp, if_pos hx]
      simp
      omega
  · intro h0 h255
    rw [applyVoiceOp, if_neg (by tauto)]
    refine ⟨rfl, ?_⟩
    show ((Voice.data ⟨v.data.set (potOffset f) x.toNat⟩).getD (potOffset f) 0 : Int) = x
    rw [List.getD_eq_getElem _ _ (by simpa using hoff)]
    rw [List.getElem_set_self]
    exact Int.toNat_of_nonneg h0

/-- Witness for `pot_setter_range_and_readback` at `level`, value 255, on a
zero-filled Standard voice: setting 256 would fail, setting 255 succeeds
and reads back 255. -/
theorem pot_setter_range_and_readback_witness :
    ((applyVoiceOp (.setPot .level 255) ⟨List.replicate 26 0⟩).1 =
        .error .valueOutOfRange ↔ (255 : Int) < 0 ∨ 255 < (255 : Int)) ∧
    ((0 : Int) ≤ 255 → (255 : Int) ≤ 255 →
      (applyVoiceOp (.setPot .level 255) ⟨List.replicate 26 0⟩).1 = .ok () ∧
      ((potValue .level
          (applyVoiceOp (.setPot .level 255) ⟨List.replicate 26 0⟩).2 : Nat)
        : Int) = 255) :=
  pot_setter_range_and_readback .level ⟨List.replicate 26 0⟩ 255 (by simp)

/-- Every branch of a voice setter either succeeds or returns the voice
unchanged (each raise in the source precedes the single write). -/
lemma applyVoiceOp_ok_or_id (op : VoiceOp) (v : Voice) :
    (applyVoiceOp op v).1 = .ok () ∨ (applyVoiceOp op v).2 = v := by
  cases op <;> simp only [applyVoiceOp] <;> repeat' split
  all_goals simp

/-- Every branch of `Kit.set_voice` either succeeds or returns the kit
unchanged (the single write is the method's final statement). -/
lemma setVoiceRun_ok_or_id (k : Kit) (i : Nat) (v : Voice) :
    (setVoiceRun k i v).1 = .ok () ∨ (setVoiceRun k i v).2 = k := by
  simp only [setVoiceRun]
  repeat' split
  all_goals simp

/-- Claim C9: mutating operations are atomic on failure — when a `Voice`
setter or `Kit.set_voice` raises, the target object's byte state is exactly
what it was before the call. -/
theorem setters_atomic_on_failure :
    (∀ (op : VoiceOp) (v : Voice) (e : Err),
      (applyVoiceOp op v).1 = .error e → (applyVoiceOp op v).2 = v) ∧
    (∀ (k : Kit) (i : Nat) (v : Voice) (e : Err),
      (setVoiceRun k i v).1 = .error e → (setVoiceRun k i v).2 = k) := by
  constructor
  · intro op v e h
    rcases applyVoiceOp_ok_or_id op v with hok | hid
    · rw [hok] at h; exact absurd h (by simp)
    · exact hid
  · intro k i v e h
    rcases setVoiceRun_ok_or_id k i v with hok | hid
    · rw [hok] at h; exact absurd h (by simp)
    · exact hid

/-- Witness for `setters_atomic_on_failure`: an out-of-range `tune` write
and an out-of-range voice index both leave their target untouched. -/
theorem setters_atomic_on_failure_witness :
    (applyVoiceOp (.setPot .tune 300) ⟨List.replicate 26 0⟩).2 =
      ⟨List.replicate 26 0⟩ ∧
    (setVoiceRun ⟨[], []⟩ 7 ⟨List.replicate 26 0⟩).2 = ⟨[], []⟩ := by
  exact ⟨setters_atomic_on_failure.1 (.setPot .tune 300) ⟨List.replicate 26 0⟩
      .valueOutOfRange (by decide),
    setters_atomic_on_failure.2 ⟨[], []⟩ 7 ⟨List.replicate 26 0⟩
      .indexOutOfRange (by decide)⟩

/-- Claim C10: every `Voice` operation — succeeding or raising — preserves
the buffer length exactly, hence the derived kind flags never change. -/
theorem voice_ops_preserve_length (op : VoiceOp) (v : Voice)
    (hlen : v.data.length = 26 ∨ v.data.length = 30 ∨ v.data.length = 32) :
    ((applyVoiceOp op v).2).data.length = v.data.length ∧
    (((applyVoiceOp op v).2).is_voice4 ↔ v.is_voice4) ∧
    (((applyVoiceOp op v).2).has_sampler ↔ v.has_sampler) := by
  have hmain : ((applyVoiceOp op v).2).data.length = v.data.length := by
    cases op <;> simp only [applyVoiceOp] <;> repeat' split
    all_goals
      simp_all only [not_not, Voice.is_voice4, Voice.has_sampler,
        pySetSlice, List.length_append, List.length_take, List.length_drop,
        List.length_set]
    all_goals omega
  exact ⟨hmain, by simp [Voice.is_voice4, hmain], by
    simp [Voice.has_sampler, hmain]⟩

/-- Witness for `voice_ops_preserve_length`: a failing `extra_params` write
on a Standard voice preserves the 26-byte length and both kind flags. -/
theorem voice_ops_preserve_length_witness :
    ((applyVoiceOp (.setExtraParams [1, 2, 3, 4])
        ⟨List.replicate 26 0⟩).2).data.length = 26 ∧
    (((applyVoiceOp (.setExtraParams [1, 2, 3, 4])
        ⟨List.replicate 26 0⟩).2).is_voice4 ↔
      (⟨List.replicate 26 0⟩ : Voice).is_voice4) := by
  have h := voice_ops_preserve_length (.setExtraParams [1, 2, 3, 4])
    ⟨List.replicate 26 0⟩ (by simp)
  exact ⟨by rw [h.1]; simp, h.2.1⟩

/-- On natural slice endpoints, Python slicing is drop-then-take. -/
lemma pySlice_coe (l : List Nat) (a b : Nat) :
    pySlice l (a : Int) (b : Int) = (l.drop a).take (b - a) := by
  simp only [pySlice]
  rw [if_neg (show ¬ ((a : Int) < 0) by omega),
    if_neg (show ¬ ((b : Int) < 0) by omega)]
  rcases le_or_lt a l.length with ha | ha
  · rcases le_or_lt b l.length with hb | hb
    · rw [if_neg (show ¬ ((b : Int) > (l.length : Int)) by omega),
        if_neg (show ¬ ((a : Int) > (l.length : Int)) by omega),
        Int.toNat_sub, Int.toNat_natCast]
    · rw [if_pos (show (b : Int) > (l.length : Int) by omega),
        if_neg (show ¬ ((a : Int) > (l.length : Int)) by omega),
        Int.toNat_sub, Int.toNat_natCast, List.take_eq_take]
      simp only [List.length_drop]
      omega
  · rcases le_or_lt b l.length with hb | hb
    · rw [if_neg (show ¬ ((b : Int) > (l.length : Int)) by omega),
        if_pos (show (a : Int) > (l.length : Int) by omega),
        Int.toNat_natCast, List.drop_length,
        List.drop_eq_nil_of_le (show l.length ≤ a by omega)]
      simp
    · rw [if_pos (show (b : Int) > (l.length : Int) by omega),
        if_pos (show (a : Int) > (l.length : Int) by omega),
        Int.toNat_natCast, List.drop_length,
        List.drop_eq_nil_of_le (show l.length ≤ a by omega)]
      simp

/-- Claim C4: on slot 3, a 26-byte (Standard) voice is upgraded — extra
bytes `[1,0,1,0]` are appended, plus `[0,0]` sampler bytes exactly when the
kit's current slot-3 voice is 32 bytes — while a 30- or 32-byte voice is
stored as-is. -/
theorem set_voice_slot3_upgrade (k : Kit) (v : Voice)
    (hk : k.voices.length = 4) :
    ((k.voices.getD 3 ⟨[]⟩).data.length = 32 → v.data.length = 26 →
      setVoiceRun k 3 v = (.ok (),
        { k with voices :=
            k.voices.set 3 ⟨v.data ++ [1, 0, 1, 0] ++ [0, 0]⟩ })) ∧
    ((k.voices.getD 3 ⟨[]⟩).data.length = 30 → v.data.length = 26 →
      setVoiceRun k 3 v = (.ok (),
        { k with voices := k.voices.set 3 ⟨v.data ++ [1, 0, 1, 0]⟩ })) ∧
    (v.data.length = 30 ∨ v.data.length = 32 →
      setVoiceRun k 3 v = (.ok (),
        { k with voices := k.voices.set 3 v })) := by
  refine ⟨fun h32 h26 => ?_, fun h30 h26 => ?_, fun hv => ?_⟩
  · simp only [setVoiceRun]
    rw [if_neg (by omega), if_pos (by omega), h32]
    simp [convertForSlot, mkVoice, h26]
  · simp only [setVoiceRun]
    rw [if_neg (by omega), if_pos (by omega), h30]
    simp [convertForSlot, mkVoice, h26]
  · simp only [setVoiceRun]
    rw [if_neg (by omega)]
    rcases hv with hv | hv <;> simp [convertForSlot, hv]

/-- Witness for `set_voice_slot3_upgrade`: placing a zero-filled Standard
voice into slot 3 of the default kit (whose slot 3 is 30 bytes) appends
`[1,0,1,0]` and no sampler bytes. -/
theorem set_voice_slot3_upgrade_witness :
    setVoiceRun defaultKit 3 ⟨empty_voice_26⟩ = (.ok (),
      { defaultKit with
          voices := defaultKit.voices.set 3 ⟨empty_voice_26 ++ [1, 0, 1, 0]⟩ }) :=
  (set_voice_slot3_upgrade defaultKit ⟨empty_voice_26⟩ (by decide)).2.1
    (by decide) (by decide)

/-- Claim C5: on slots 0–2, a 30- or 32-byte voice is truncated to its
first 26 bytes, a 26-byte voice is stored as-is, and in either case
`get_voice` afterwards returns a 26-byte voice equal to the first 26 bytes
of the input. -/
theorem set_voice_slots012_truncation (k : Kit) (i : Nat) (v : Voice)
    (hi : i < 3) (hk : k.voices.length = 4) :
    (v.data.length = 30 ∨ v.data.length = 32 →
      setVoiceRun k i v = (.ok (),
        { k with voices := k.voices.set i ⟨v.data.take 26⟩ })) ∧
    (v.data.length = 26 →
      setVoiceRun k i v = (.ok (),
        { k with voices := k.voices.set i v })) ∧
    (v.data.length = 26 ∨ v.data.length = 30 ∨ v.data.length = 32 →
      ∃ w, get_voice (setVoiceRun k i v).2 i = .ok w ∧
        w.data.length = 26 ∧ w.data = v.data.take 26) := by
  have hsl : pySlice v.data 0 26 = v.data.take 26 := by
    have h := pySlice_coe v.data 0 26
    simpa using h
  have htrunc : ∀ hv : v.data.length = 30 ∨ v.data.length = 32,
      setVoiceRun k i v = (.ok (),
        { k with voices := k.voices.set i ⟨v.data.take 26⟩ }) := by
    intro hv
    simp only [setVoiceRun]
    rw [if_neg (by omega)]
    rcases hv with hv | hv <;>
      simp [convertForSlot, mkVoice, hsl, hv, hi]
  have hid : ∀ hv : v.data.length = 26,
      setVoiceRun k i v = (.ok (),
        { k with voices := k.voices.set i v }) := by
    intro hv
    simp only [setVoiceRun]
    rw [if_neg (by omega)]
    simp [convertForSlot, hv, hi]
  refine ⟨htrunc, hid, fun hv => ?_⟩
  have hget : ∀ w : Voice,
      get_voice { k with voices := k.voices.set i w } i = .ok w := by
    intro w
    rw [get_voice, if_neg (by omega)]
    congr 1
    rw [List.getD_eq_getElem _ _ (by rw [List.length_set, hk]; omega)]
    exact List.getElem_set_self _
  rcases hv with hv | hv
  · refine ⟨v, ?_, hv, (List.take_of_length_le (by omega)).symm⟩
    rw [hid hv, hget]
  · refine ⟨⟨v.data.take 26⟩, ?_, by rw [List.length_take]; omega, rfl⟩
    rw [htrunc hv, hget]

/-- Witness for `set_voice_slots012_truncation`: a 30-byte voice written to
slot 0 of the default kit is stored truncated to its first 26 bytes. -/
theorem set_voice_slots012_truncation_witness :
    setVoiceRun defaultKit 0 ⟨empty_voice_30⟩ = (.ok (),
      { defaultKit with
          voices := defaultKit.voices.set 0 ⟨empty_voice_30.take 26⟩ }) :=
  (set_voice_slots012_truncation defaultKit 0 ⟨empty_voice_30⟩ (by decide)
    (by decide)).1 (by decide)

lemma mkVoice_error (d : List Nat) (e : Err) (h : mkVoice d = .error e) :
    e = .invalidVoiceLength := by
  unfold mkVoice at h
  split at h
  · exact absurd h (by simp)
  · injection h with h
    exact h.symm

lemma mapExcept_error {α β : Type} {f : α → Except Err β} :
    ∀ (l : List α) (e : Err), mapExcept f l = .error e →
      ∃ a ∈ l, f a = .error e := by
  intro l
  induction l with
  | nil => intro e h; simp [mapExcept] at h
  | cons a t ih =>
    intro e h
    simp only [mapExcept] at h
    split at h
    · rename_i e' heq
      injection h with h
      exact ⟨a, by simp, by rw [heq, h]⟩
    · split at h
      · rename_i e' heq
        injection h with h
        obtain ⟨x, hx, hfx⟩ := ih e' heq
        exact ⟨x, by simp [hx], by rw [hfx, h]⟩
      · exact absurd h (by simp)

/-- Claim C7: `decode` fails with `MalformedKitError` exactly when the
number of marker occurrences (every position scanned left to right) is not
4 — when the count is 4 any remaining failure is `InvalidVoiceLength`,
never `MalformedKitError`. -/
theorem decode_malformed_iff (b : List Nat) :
    decode b = .error .malformedKit ↔ (findMarkers b).length ≠ 4 := by
  constructor
  · intro h
    by_contra hlen
    simp only [decode, find_voice_boundaries] at h
    rw [if_neg (show ¬ ((findMarkers b).length ≠ 4) by omega)] at h
    split at h
    · rename_i e heq
      exact absurd heq (by simp)
    · rename_i bounds heq
      split at h
      · rename_i e heq2
        injection h with h
        obtain ⟨se, _, hse⟩ := mapExcept_error _ e heq2
        have he := mkVoice_error _ e hse
        rw [h] at he
        exact absurd he (by simp)
      · exact absurd h (by simp)
  · intro hlen
    simp only [decode, find_voice_boundaries]
    rw [if_pos hlen]

lemma mkVoice_ok (d : List Nat) (v : Voice) (h : mkVoice d = .ok v) :
    v.data = d ∧ (d.length = 26 ∨ d.length = 30 ∨ d.length = 32) := by
  unfold mkVoice at h
  split at h
  · rename_i hc
    injection h with h
    exact ⟨by rw [← h], hc⟩
  · exact absurd h (by simp)

lemma mapExcept_ok_cons {α β : Type} {f : α → Except Err β} {a : α}
    {l : List α} {res : List β} (h : mapExcept f (a :: l) = .ok res) :
    ∃ y ys, f a = .ok y ∧ mapExcept f l = .ok ys ∧ res = y :: ys := by
  simp only [mapExcept] at h
  split at h
  · exact absurd h (by simp)
  · rename_i y heq
    split at h
    · exact absurd h (by simp)
    · rename_i ys heq2
      injection h with h
      exact ⟨y, ys, heq, heq2, h.symm⟩

lemma length_four_eq {α : Type} {l : List α} (h : l.length = 4) :
    ∃ a b c d, l = [a, b, c, d] := by
  rcases l with _ | ⟨a, _ | ⟨b, _ | ⟨c, _ | ⟨d, _ | ⟨e, t⟩⟩⟩⟩⟩
  · simp at h
  · simp at h
  · simp at h
  · simp at h
  · exact ⟨a, b, c, d, rfl⟩
  · simp at h

/-- A Python slice with a negative start index is never longer than the
magnitude of that index. -/
lemma pySlice_length_le_of_neg (l : List Nat) (i j : Int) (hi : i < 0) :
    (pySlice l i j).length ≤ (-i).toNat := by
  simp only [pySlice]
  rw [if_pos hi]
  simp only [List.length_take, List.length_drop]
  refine le_trans (min_le_right _ _) ?_
  split <;> omega

/-- The marker positions reported by the scan are strictly increasing. -/
lemma findMarkers_pairwise (b : List Nat) :
    List.Pairwise (· < ·) (findMarkers b) := by
  unfold findMarkers
  exact List.Pairwise.filter _ (List.pairwise_lt_range _)

/-- Every reported marker position lies in the scanned range. -/
lemma findMarkers_mem_lt (b : List Nat) :
    ∀ x ∈ findMarkers b, x < b.length - 3 := by
  unfold findMarkers
  intro x hx
  exact List.mem_range.mp (List.mem_of_mem_filter hx)

/-- Adjacent drop-take slices of the same list glue together. -/
lemma slice_glue (l : List Nat) (a b c : Nat) (hab : a ≤ b) (hbc : b ≤ c) :
    (l.drop a).take (b - a) ++ (l.drop b).take (c - b) =
      (l.drop a).take (c - a) := by
  rw [show c - a = (b - a) + (c - b) from by omega, List.take_add,
    List.drop_drop, show a + (b - a) = b from by omega]

/-- Claim C1: any buffer accepted by `decode` is reproduced byte-for-byte
by `encode` (`Kit.to_bytes`), and decoding those bytes again yields the
same kit field-for-field. -/
theorem decode_encode_roundTrip (b : List Nat) (k : Kit)
    (h : decode b = .ok k) :
    k.to_bytes = b ∧ decode k.to_bytes = .ok k := by
  suffices hb : k.to_bytes = b by
    exact ⟨hb, by rw [hb, h]⟩
  simp only [decode, find_voice_boundaries] at h
  by_cases hlen : (findMarkers b).length = 4
  case neg =>
    rw [if_pos hlen] at h
    split at h <;> simp_all
  rw [if_neg (show ¬ ((findMarkers b).length ≠ 4) by omega)] at h
  obtain ⟨p0, p1, p2, p3, hps⟩ := length_four_eq hlen
  have hpw := findMarkers_pairwise b
  have hmem := findMarkers_mem_lt b
  rw [hps] at hpw hmem
  simp only [List.pairwise_cons, List.mem_cons, List.not_mem_nil,
    List.mem_singleton] at hpw
  have h01 : p0 < p1 := hpw.1 p1 (by simp)
  have h12 : p1 < p2 := hpw.2.1 p2 (by simp)
  have h23 : p2 < p3 := hpw.2.2.1 p3 (by simp)
  have h3n : p3 < b.length - 3 := hmem p3 (by simp)
  split at h
  · rename_i e heq
    exact absurd heq (by simp)
  rename_i bounds heq
  rw [hps] at heq
  simp only [List.map_cons, List.map_nil, List.tail_cons,
    List.zip_cons_cons, List.zip_nil_right] at heq
  injection heq with heq
  split at h
  · exact absurd h (by simp)
  rename_i voices heq2
  rw [← heq] at heq2
  injection h with h
  obtain ⟨v0, r1, hf0, heq2, hres⟩ := mapExcept_ok_cons heq2
  obtain ⟨v1, r2, hf1, heq2, hres1⟩ := mapExcept_ok_cons heq2
  obtain ⟨v2, r3, hf2, heq2, hres2⟩ := mapExcept_ok_cons heq2
  obtain ⟨v3, r4, hf3, heq2, hres3⟩ := mapExcept_ok_cons heq2
  have hres4 : r4 = [] := by
    simp only [mapExcept] at heq2
    injection heq2 with heq2
    exact heq2.symm
  dsimp only at hf0 hf1 hf2 hf3
  obtain ⟨hd0, hl0⟩ := mkVoice_ok _ _ hf0
  obtain ⟨hd1, hl1⟩ := mkVoice_ok _ _ hf1
  obtain ⟨hd2, hl2⟩ := mkVoice_ok _ _ hf2
  obtain ⟨hd3, hl3⟩ := mkVoice_ok _ _ hf3
  -- the first voice starts at a non-negative offset: otherwise its slice
  -- would have at most 4 bytes, contradicting the accepted voice length
  have hp04 : 4 ≤ p0 := by
    by_contra hneg
    have hlt : ((p0 : Int) - 4) < 0 := by omega
    have hle := pySlice_length_le_of_neg b ((p0 : Int) - 4) ((p1 : Int) - 4) hlt
    rw [← hd0] at hl0
    have : (pySlice b ((p0 : Int) - 4) ((p1 : Int) - 4)).length = v0.data.length := by
      rw [hd0]
    omega
  -- rewrite the Int endpoints as Nat endpoints
  have e0 : ((p0 : Int) - 4) = ((p0 - 4 : Nat) : Int) := by omega
  have e1 : ((p1 : Int) - 4) = ((p1 - 4 : Nat) : Int) := by omega
  have e2 : ((p2 : Int) - 4) = ((p2 - 4 : Nat) : Int) := by omega
  have e3 : ((p3 : Int) - 4) = ((p3 - 4 : Nat) : Int) := by omega
  rw [e0, e1] at hd0
  rw [e1, e2] at hd1
  rw [e2, e3] at hd2
  rw [e3] at hd3
  rw [pySlice_coe] at hd0 hd1 hd2
  have hd3' : v3.data = (b.drop (p3 - 4)).take (b.length - (p3 - 4)) := by
    rw [hd3, pySlice_coe]
  -- the voice boundaries, fully evaluated
  have hbounds : bounds = [((p0 : Int) - 4, (p1 : Int) - 4),
      ((p1 : Int) - 4, (p2 : Int) - 4), ((p2 : Int) - 4, (p3 : Int) - 4),
      ((p3 : Int) - 4, (b.length : Int))] := by
    rw [← heq]
    rfl
  -- the header slice
  have hhdr : pySlice b 0 ((p0 : Int) - 4) = b.take (p0 - 4) := by
    rw [e0]
    have hcoe := pySlice_coe b 0 (p0 - 4)
    simpa using hcoe
  -- assemble the bytes
  rw [← h, hres, hres1, hres2, hres3, hres4, hbounds]
  simp only [Kit.to_bytes, List.headI, List.map_cons, List.map_nil,
    List.flatten_cons, List.flatten_nil, List.append_nil]
  rw [hhdr, hd0, hd1, hd2, hd3']
  rw [slice_glue b (p2 - 4) (p3 - 4) b.length (by omega) (by omega),
    slice_glue b (p1 - 4) (p2 - 4) b.length (by omega) (by omega),
    slice_glue b (p0 - 4) (p1 - 4) b.length (by omega) (by omega)]
  rw [List.take_of_length_le
      (show (List.drop (p0 - 4) b).length ≤ b.length - (p0 - 4) by simp),
    List.take_append_drop]

set_option maxRecDepth 8000 in
/-- Witness for `decode_encode_roundTrip` on a concrete 115-byte kit buffer
(7-byte header plus voices of 26, 26, 26 and 30 bytes). -/
theorem decode_encode_roundTrip_witness :
    (Kit.to_bytes ⟨[9, 9, 9, 9, 9, 9, 9],
        [⟨empty_voice_26⟩, ⟨empty_voice_26⟩, ⟨empty_voice_26⟩,
         ⟨empty_voice_30⟩]⟩ =
      [9, 9, 9, 9, 9, 9, 9] ++ empty_voice_26 ++ empty_voice_26 ++
        empty_voice_26 ++ empty_voice_30) ∧
    decode (Kit.to_bytes ⟨[9, 9, 9, 9, 9, 9, 9],
        [⟨empty_voice_26⟩, ⟨empty_voice_26⟩, ⟨empty_voice_26⟩,
         ⟨empty_voice_30⟩]⟩) =
      .ok ⟨[9, 9, 9, 9, 9, 9, 9],
        [⟨empty_voice_26⟩, ⟨empty_voice_26⟩, ⟨empty_voice_26⟩,
         ⟨empty_voice_30⟩]⟩ := by
  have h := decode_encode_roundTrip
    ([9, 9, 9, 9, 9, 9, 9] ++ empty_voice_26 ++ empty_voice_26 ++
      empty_voice_26 ++ empty_voice_30)
    ⟨[9, 9, 9, 9, 9, 9, 9],
      [⟨empty_voice_26⟩, ⟨empty_voice_26⟩, ⟨empty_voice_26⟩,
       ⟨empty_voice_30⟩]⟩ (by decide)
  exact ⟨h.1, by rw [h.1]; exact (h.1 ▸ h.2)⟩

/-- A successful `mixLoop` step decomposes into the selection bounds
checks, the source-voice fetch and a successful `set_voice`. -/
lemma mixLoop_cons (kits : List Kit) (t : Nat) (sel : Nat × Nat)
    (rest : List (Nat × Nat)) (kit : Kit) (k : Kit)
    (h : mixLoop kits t (sel :: rest) kit = .ok k) :
    ∃ v kit', sel.1 < kits.length ∧ sel.2 < 4 ∧
      (kits.getD sel.1 defaultKit).voices.getD sel.2 ⟨[]⟩ = v ∧
      setVoiceRun kit t v = (.ok (), kit') ∧
      mixLoop kits (t + 1) rest kit' = .ok k := by
  simp only [mixLoop] at h
  split at h
  · exact absurd h (by simp)
  rename_i hki
  split at h
  · exact absurd h (by simp)
  rename_i hvi
  rw [get_voice, if_neg (by omega)] at h
  split at h
  · rename_i e heq
    exact absurd heq (by simp)
  rename_i w heq
  injection heq with heq
  split at h
  · rename_i u kit' heq2
    refine ⟨w, kit', by omega, by omega, heq, ?_, h⟩
    rcases u
    exact heq2
  · rename_i e snd heq2
    exact absurd h (by simp)

/-- A successful `set_voice` decomposes into the index check, a successful
conversion and the single write. -/
lemma setVoiceRun_ok_eq (k : Kit) (i : Nat) (v : Voice) (k' : Kit)
    (h : setVoiceRun k i v = (.ok (), k')) :
    i < 4 ∧ ∃ conv, convertForSlot i
        (if k.voices.length > 3 then (k.voices.getD 3 ⟨[]⟩).data.length
         else 30) v = .ok conv ∧
      k' = { k with voices := k.voices.set i conv } := by
  simp only [setVoiceRun] at h
  split at h
  · exact absurd h (by simp)
  rename_i hi
  split at h
  · rename_i e heq
    exact absurd h (by simp)
  · rename_i conv heq
    injection h with h1 h2
    exact ⟨by omega, conv, heq, h2.symm⟩

/-- For target slots 0–2 the conversion never consults the kit's current
voice-4 size. -/
lemma convertForSlot_lt3 (i a c : Nat) (v : Voice) (hi : i < 3) :
    convertForSlot i a v = convertForSlot i c v := by
  simp only [convertForSlot, if_pos hi]

/-- Claim C2 (amended): a successful `mix_kits` returns a kit whose header
is copied from the FIRST KIT IN THE FILE LIST (`kits[0]`), regardless of
the selections, and whose voice at each target index 0..3 is the source
voice of the selection at that position, passed through `set_voice`'s
conversion (the slot-3 conversion target is the fresh kit's default 30-byte
voice 4). -/
theorem mix_kits_header_and_voices (files : List (List Nat))
    (sels : List (Nat × Nat)) (k : Kit)
    (h : mix_kits files sels = .ok k) :
    ∃ kits k0 rest, mapExcept decode files = .ok kits ∧ kits = k0 :: rest ∧
      k.header = k0.header ∧
      ∀ t, t < 4 → ∃ sel src conv, sels.getD t (0, 0) = sel ∧
        sel.1 < kits.length ∧ sel.2 < 4 ∧
        (kits.getD sel.1 defaultKit).voices.getD sel.2 ⟨[]⟩ = src ∧
        convertForSlot t 30 src = .ok conv ∧
        k.voices.getD t ⟨[]⟩ = conv := by
  simp only [mix_kits] at h
  split at h
  · exact absurd h (by simp)
  rename_i hsels
  split at h
  · exact absurd h (by simp)
  rename_i kits hkits
  split at h
  · exact absurd h (by simp)
  rename_i k0 rest
  obtain ⟨s0, s1, s2, s3, hsl⟩ := length_four_eq
    (show sels.length = 4 by omega)
  subst hsl
  obtain ⟨w0, kit1, hki0, hvi0, hw0, hsv0, h⟩ := mixLoop_cons _ _ _ _ _ _ h
  obtain ⟨w1, kit2, hki1, hvi1, hw1, hsv1, h⟩ := mixLoop_cons _ _ _ _ _ _ h
  obtain ⟨w2, kit3, hki2, hvi2, hw2, hsv2, h⟩ := mixLoop_cons _ _ _ _ _ _ h
  obtain ⟨w3, kit4, hki3, hvi3, hw3, hsv3, h⟩ := mixLoop_cons _ _ _ _ _ _ h
  simp only [mixLoop] at h
  injection h with h
  subst h
  obtain ⟨-, c0, hc0, hk1⟩ := setVoiceRun_ok_eq _ _ _ _ hsv0
  subst hk1
  obtain ⟨-, c1, hc1, hk2⟩ := setVoiceRun_ok_eq _ _ _ _ hsv1
  subst hk2
  obtain ⟨-, c2, hc2, hk3⟩ := setVoiceRun_ok_eq _ _ _ _ hsv2
  subst hk3
  obtain ⟨-, c3, hc3, hk4⟩ := setVoiceRun_ok_eq _ _ _ _ hsv3
  subst hk4
  refine ⟨k0 :: rest, k0, rest, hkits, rfl, rfl, ?_⟩
  intro t ht
  match t, ht with
  | 0, _ => exact ⟨s0, w0, c0, rfl, hki0, hvi0, hw0,
      (convertForSlot_lt3 0 _ 30 w0 (by omega)) ▸ hc0, rfl⟩
  | 1, _ => exact ⟨s1, w1, c1, rfl, hki1, hvi1, hw1,
      (convertForSlot_lt3 1 _ 30 w1 (by omega)) ▸ hc1, rfl⟩
  | 2, _ => exact ⟨s2, w2, c2, rfl, hki2, hvi2, hw2,
      (convertForSlot_lt3 2 _ 30 w2 (by omega)) ▸ hc2, rfl⟩
  | 3, _ => exact ⟨s3, w3, c3, rfl, hki3, hvi3, hw3, hc3, rfl⟩

/-- A 7-byte header of nines, used in concrete kit buffers. -/
def hdrA : List Nat := [9, 9, 9, 9, 9, 9, 9]

/-- A 7-byte header of sevens, distinct from `hdrA`. -/
def hdrB : List Nat := [7, 7, 7, 7, 7, 7, 7]

/-- A concrete decodable kit buffer with header `hdrA`. -/
def bufA : List Nat :=
  hdrA ++ empty_voice_26 ++ empty_voice_26 ++ empty_voice_26 ++ empty_voice_30

/-- A concrete decodable kit buffer with header `hdrB`. -/
def bufB : List Nat :=
  hdrB ++ empty_voice_26 ++ empty_voice_26 ++ empty_voice_26 ++ empty_voice_30

set_option maxRecDepth 8000 in
/-- Claim C2 counterexample: mixing `[bufA, bufB]` with every selection
referring to kit 1 yields a kit whose header is `bufA`'s header (the first
kit in the list), not `bufB`'s header (the first selection's kit), and the
two headers differ. -/
theorem mix_kits_header_claim_counterexample :
    (mix_kits [bufA, bufB] [(1, 0), (1, 1), (1, 2), (1, 3)]).map Kit.header
        = .ok hdrA ∧
    (decode bufB).map Kit.header = .ok hdrB ∧
    hdrA ≠ hdrB := by decide

set_option maxRecDepth 8000 in
/-- Witness for `mix_kits_header_and_voices` on the concrete two-kit mix
with all selections from kit 1. -/
theorem mix_kits_header_and_voices_witness :
    ∃ kits k0 rest, mapExcept decode [bufA, bufB] = .ok kits ∧
      kits = k0 :: rest ∧
      (⟨hdrA, [⟨empty_voice_26⟩, ⟨empty_voice_26⟩, ⟨empty_voice_26⟩,
        ⟨empty_voice_30⟩]⟩ : Kit).header = k0.header ∧
      ∀ t, t < 4 → ∃ sel src conv,
        ([(1, 0), (1, 1), (1, 2), (1, 3)] :
          List (Nat × Nat)).getD t (0, 0) = sel ∧
        sel.1 < kits.length ∧ sel.2 < 4 ∧
        (kits.getD sel.1 defaultKit).voices.getD sel.2 ⟨[]⟩ = src ∧
        convertForSlot t 30 src = .ok conv ∧
        (⟨hdrA, [⟨empty_voice_26⟩, ⟨empty_voice_26⟩, ⟨empty_voice_26⟩,
          ⟨empty_voice_30⟩]⟩ : Kit).voices.getD t ⟨[]⟩ = conv :=
  mix_kits_header_and_voices [bufA, bufB] [(1, 0), (1, 1), (1, 2), (1, 3)]
    ⟨hdrA, [⟨empty_voice_26⟩, ⟨empty_voice_26⟩, ⟨empty_voice_26⟩,
      ⟨empty_voice_30⟩]⟩ (by decide)

lemma getD_set_ne {α : Type} (l : List α) (i j : Nat) (a d : α)
    (h : i ≠ j) : (l.set i a).getD j d = l.getD j d := by
  simp [List.getD_eq_getElem?_getD, List.getElem?_set_ne h]

lemma getD_set_self {α : Type} (l : List α) (i : Nat) (a d : α)
    (h : i < l.length) : (l.set i a).getD i d = a := by
  rw [List.getD_eq_getElem _ _ (by simpa using h)]
  exact List.getElem_set_self _

/-- A heap with one kit's four voices at references 0–3 (26, 26, 26, 30
bytes) and one standalone 26-byte voice object at reference 4. -/
def cexStore : Store :=
  [empty_voice_26, empty_voice_26, empty_voice_26, empty_voice_30,
   empty_voice_26]

/-- Claim C3 counterexample: storing the 26-byte voice (reference 4) into
slot 0 succeeds without copying — the kit's slot 0 now holds reference 4 —
and a subsequent `tune := 5` on that same voice object changes the bytes of
the kit's slot-0 voice. -/
theorem set_voice_aliasing_counterexample :
    setVoiceRef cexStore [0, 1, 2, 3] 0 4 = .ok (cexStore, [4, 1, 2, 3]) ∧
    (potSetRef cexStore 4 .tune 5).1 = .ok () ∧
    bytesAt (potSetRef cexStore 4 .tune 5).2
        (List.getD [4, 1, 2, 3] 0 0) ≠
      bytesAt cexStore (List.getD [4, 1, 2, 3] 0 0) := by decide

/-- Claim C3 (amended): `set_voice` copies the voice bytes — breaking
aliasing — exactly on its conversion paths (slots 0–2 with a 30/32-byte
voice, slot 3 with a 26-byte voice): the stored reference is fresh, so
mutating the supplied voice leaves the kit's stored voice unchanged and
vice versa.  (On pass-through paths the object is stored by reference, as
the counterexample shows.) -/
theorem set_voice_conversion_copies (s : Store) (refs : List Nat)
    (i r : Nat) (hr : r < s.length) (hrefs : refs.length = 4)
    (hconv : (i < 3 ∧ ((bytesAt s r).length = 30 ∨
        (bytesAt s r).length = 32)) ∨
      (i = 3 ∧ (bytesAt s r).length = 26)) :
    ∃ s' refs', setVoiceRef s refs i r = .ok (s', refs') ∧
      refs'.getD i 0 = s.length ∧ s.length ≠ r ∧
      (∀ (f : PotField) (x : Int),
        bytesAt (potSetRef s' r f x).2 s.length = bytesAt s' s.length) ∧
      (∀ (f : PotField) (x : Int),
        bytesAt (potSetRef s' (s.length) f x).2 r = bytesAt s' r) := by
  have hmut : ∀ (s' : Store) (a c : Nat) (f : PotField) (x : Int), a ≠ c →
      bytesAt (potSetRef s' a f x).2 c = bytesAt s' c := by
    intro s' a c f x hac
    simp only [potSetRef]
    split
    · rfl
    · exact getD_set_ne _ _ _ _ _ hac
  rcases hconv with ⟨hi, hlen⟩ | ⟨hi, hlen⟩
  · refine ⟨List.append s [pySlice (bytesAt s r) 0 26],
      refs.set i (List.length s), ?_, ?_, by omega, ?_, ?_⟩
    · simp only [setVoiceRef, allocV]
      rw [if_neg (by omega), if_pos hi, if_pos (by omega), if_pos hlen]
    · exact getD_set_self _ _ _ _ (by omega)
    · intro f x; exact hmut _ _ _ f x (by omega)
    · intro f x; exact hmut _ _ _ f x (by omega)
  · subst hi
    refine ⟨List.append s [bytesAt s r ++ [1, 0, 1, 0] ++
        (if (bytesAt s (refs.getD 3 0)).length = 32 then [0, 0] else [])],
      refs.set 3 (List.length s), ?_, ?_, by omega, ?_, ?_⟩
    · simp only [setVoiceRef, allocV]
      rw [if_neg (by omega), if_neg (by omega), if_pos hlen]
    · exact getD_set_self _ _ _ _ (by omega)
    · intro f x; exact hmut _ _ _ f x (by omega)
    · intro f x; exact hmut _ _ _ f x (by omega)

/-- A heap like `cexStore` but whose standalone voice (reference 4) is a
30-byte voice, so that storing it into slot 0 takes the truncation path. -/
def cexStore2 : Store :=
  [empty_voice_26, empty_voice_26, empty_voice_26, empty_voice_30,
   empty_voice_30]

/-- Witness for `set_voice_conversion_copies`: the truncation path at
slot 0 with the 30-byte voice at reference 4 of `cexStore2`. -/
theorem set_voice_conversion_copies_witness :
    ∃ s' refs', setVoiceRef cexStore2 [0, 1, 2, 3] 0 4 = .ok (s', refs') ∧
      refs'.getD 0 0 = cexStore2.length ∧ cexStore2.length ≠ 4 ∧
      (∀ (f : PotField) (x : Int),
        bytesAt (potSetRef s' 4 f x).2 cexStore2.length =
          bytesAt s' cexStore2.length) ∧
      (∀ (f : PotField) (x : Int),
        bytesAt (potSetRef s' (cexStore2.length) f x).2 4 = bytesAt s' 4) :=
  set_voice_conversion_copies cexStore2 [0, 1, 2, 3] 0 4 (by decide)
    (by decide) (by decide)

end Pykons
